import Mathlib

/-!
Verification of the 2Bored2Tolerate queue proxy (jasonzli-DEV/2Bored2Tolerate).

Shallow embedding of the core logic:
* `src/eta-learner.js` — the adaptive ETA learner (`ETALearner`): live-sample
  tracking, historical weighted rate with Kish effective sample size, and the
  blended minute estimate.
* `src/proxy.js` — the connection lifecycle pieces relevant to queue-finish
  detection, disconnect handling and the anti-AFK gating.
* `src/queuelearner.js` and the standalone collector variant — the
  disconnect-time partial-session persistence.

Conventions of the embedding:
* JS numbers are modelled as `ℚ` (exact arithmetic) and integer-valued
  quantities as `ℤ`/`ℕ`; `Math.round` becomes `jsRound` (round half toward
  +infinity), `Math.floor` becomes `Int.floor`.
* Nullable JS numbers are `Option ℤ`; JS truthiness of such a value
  (`!this.sessionStartPos`) is `truthy`, under which both `null` and `0` are
  falsy, exactly as in JS.
* `Math.exp` is abstracted as a parameter `texp : ℚ → ℚ`; theorems that need
  facts about it take them as explicit hypotheses (positivity, which holds for
  the real exponential).
* `Date.prototype.getDay`/`getHours` (timezone-dependent calendar lookups) are
  abstracted as a `JsDate` structure of functions from epoch milliseconds.
* `Array.prototype.sort` (stable in Node) with the comparator
  `(a, b) => b.startTimeMs - a.startTimeMs` is modelled by the stable
  `List.insertionSort` with the matching total relation.
-/

namespace TwoB

/-- JS `Math.round`: round half toward positive infinity. -/
def jsRound (x : ℚ) : ℤ := ⌊x + 1/2⌋

/-- JS truthiness of a nullable number: `null` and `0` are falsy. -/
def truthy : Option ℤ → Bool
  | none => false
  | some n => n != 0

/-- Abstraction of JS `Date`: local day-of-week (`getDay`, 0–6) and local hour
(`getHours`, 0–23) of an epoch-milliseconds timestamp. -/
structure JsDate where
  getDay : ℤ → ℤ
  getHours : ℤ → ℤ

/-- A live position sample of the active session
(`{ time: Date.now(), pos }` entries of `activeSamples`). -/
structure Sample where
  time : ℤ
  pos : ℤ
deriving Repr, DecidableEq

/-- A stored completed session
(`{ startPos, startTimeMs, endTimeMs, durationMs, dayOfWeek, startHour,
positionsPerHour }` in `this.sessions`). -/
structure Session where
  startPos : ℤ
  startTimeMs : ℤ
  endTimeMs : ℤ
  durationMs : ℤ
  dayOfWeek : ℤ
  startHour : ℤ
  positionsPerHour : ℤ
deriving Repr, DecidableEq

/-- The mutable fields of `ETALearner` (src/eta-learner.js). -/
structure LearnerState where
  sessions : List Session
  activeSamples : List Sample
  sessionStartPos : Option ℤ
  sessionStartTime : Option ℤ
deriving Repr, DecidableEq

/-- `ETALearner` state right after construction with no data file
(`this.sessions = []`, no active session). -/
def LearnerState.init : LearnerState :=
  { sessions := [], activeSamples := [], sessionStartPos := none, sessionStartTime := none }

/-- `MAX_SESSIONS = 500` (src/eta-learner.js line 11). -/
def MAX_SESSIONS : ℕ := 500

/-- `ETALearner.beginSession(startPos)`: unconditionally records the start
position and time and resets the live window to a single sample. -/
def beginSession (st : LearnerState) (startPos now : ℤ) : LearnerState :=
  { st with
    sessionStartPos := some startPos
    sessionStartTime := some now
    activeSamples := [⟨now, startPos⟩] }

/-- `ETALearner.recordSample(pos)`: append a timestamped sample, keeping the
most recent 30 (`if (this.activeSamples.length > 30) this.activeSamples.shift()`). -/
def recordSample (st : LearnerState) (pos now : ℤ) : LearnerState :=
  let samples := st.activeSamples ++ [⟨now, pos⟩]
  { st with activeSamples := if samples.length > 30 then samples.tail else samples }

/-- The `CompletedSession` record built by `recordCompletedSession` on its
success path (`const session = { ... }`). -/
def completedSession (cal : JsDate) (st : LearnerState) (nowMs : ℤ) : Session :=
  let startPos := st.sessionStartPos.getD 0
  let startTime := st.sessionStartTime.getD 0
  let durationMs := nowMs - startTime
  let durationHours : ℚ := (durationMs : ℚ) / 3600000
  { startPos := startPos
    startTimeMs := startTime
    endTimeMs := nowMs
    durationMs := durationMs
    dayOfWeek := cal.getDay startTime
    startHour := cal.getHours startTime
    positionsPerHour := jsRound ((startPos : ℚ) / durationHours) }

/-- `ETALearner.recordCompletedSession()`.  Early returns:
`if (!this.sessionStartPos || !this.sessionStartTime) return` (JS truthiness,
so a start position of 0 also bails out), `durationMs < 2*60*1000`, and the
rate sanity check `positionsPerHour <= 0 || positionsPerHour > 10000`.
On success, pushes the session, evicts the oldest once over `MAX_SESSIONS`,
and clears the active-session state.  (`this._save()` is a file write with no
effect on in-memory state and is not modelled.) -/
def recordCompletedSession (cal : JsDate) (st : LearnerState) (nowMs : ℤ) : LearnerState :=
  if truthy st.sessionStartPos = false ∨ truthy st.sessionStartTime = false then st
  else
    let startTime := st.sessionStartTime.getD 0
    let durationMs := nowMs - startTime
    if durationMs < 2 * 60 * 1000 then st
    else
      let s := completedSession cal st nowMs
      if s.positionsPerHour ≤ 0 ∨ s.positionsPerHour > 10000 then st
      else
        let sessions := st.sessions ++ [s]
        { sessions := if sessions.length > MAX_SESSIONS then sessions.tail else sessions
          activeSamples := []
          sessionStartPos := none
          sessionStartTime := none }

/-- `ETALearner._getLiveRate()`: positions per hour from the oldest and newest
live samples; `null` when fewer than 5 samples, under a minute of elapsed
time, or no position drop. -/
def getLiveRate (st : LearnerState) : Option ℚ :=
  if st.activeSamples.length < 5 then none
  else
    match st.activeSamples.head?, st.activeSamples.getLast? with
    | some oldest, some newest =>
      let elapsedHours : ℚ := ((newest.time - oldest.time : ℤ) : ℚ) / 3600000
      if elapsedHours < 1/60 then none
      else
        let posDropped := oldest.pos - newest.pos
        if posDropped ≤ 0 then none
        else some ((posDropped : ℚ) / elapsedHours)
    | _, _ => none

/-- `s.dayOfWeek === 0 || s.dayOfWeek === 6` (weekend test). -/
def isWeekendDay (d : ℤ) : Bool := d == 0 || d == 6

/-- The per-session weight of `_getHistoricalRate`'s `forEach` body:
Gaussian hour-of-day similarity (σ = 4h, wrapping at midnight) × day-type
bonus (1.0 same weekend/weekday type, else 0.35) × linear recency `(n-i)/n`.
`texp` abstracts `Math.exp`. -/
def sessionWeight (texp : ℚ → ℚ) (hour : ℤ) (isWeekend : Bool) (n i : ℕ) (s : Session) : ℚ :=
  let rawDiff := |s.startHour - hour|
  let hourDiff := min rawDiff (24 - rawDiff)
  let timeWeight := texp (-(1/2) * ((hourDiff : ℚ) / 4) ^ 2)
  let dayWeight : ℚ := if isWeekendDay s.dayOfWeek = isWeekend then 1 else 35/100
  let recencyWeight : ℚ := ((n : ℚ) - (i : ℚ)) / (n : ℚ)
  timeWeight * dayWeight * recencyWeight

/-- The result object of `_getHistoricalRate`:
`{ rate, effectiveSessions }`. -/
structure HistResult where
  rate : ℚ
  effectiveSessions : ℤ
deriving Repr, DecidableEq

/-- `[...this.sessions].sort((a, b) => b.startTimeMs - a.startTimeMs)`:
stable sort, newest first.  Node's `Array.prototype.sort` is stable, as is
`List.insertionSort` with this total relation. -/
def sortByRecency (l : List Session) : List Session :=
  l.insertionSort (fun a b => b.startTimeMs ≤ a.startTimeMs)

/-- `ETALearner._getHistoricalRate(now)`: weighted mean of the stored
sessions' `positionsPerHour` with `sessionWeight`, plus the Kish effective
sample size `(Σw)² / Σw²` (rounded); `null` on an empty store or zero total
weight. -/
def getHistoricalRate (texp : ℚ → ℚ) (cal : JsDate) (st : LearnerState) (nowMs : ℤ) :
    Option HistResult :=
  if st.sessions.length = 0 then none
  else
    let hour := cal.getHours nowMs
    let isWeekend := isWeekendDay (cal.getDay nowMs)
    let sorted := sortByRecency st.sessions
    let n := sorted.length
    let weights := sorted.enum.map (fun p => sessionWeight texp hour isWeekend n p.1 p.2)
    let weightedSum :=
      (sorted.enum.map (fun p =>
        (p.2.positionsPerHour : ℚ) * sessionWeight texp hour isWeekend n p.1 p.2)).sum
    let totalWeight := weights.sum
    let effectiveCountDenom := (weights.map (fun w => w * w)).sum
    if totalWeight = 0 then none
    else
      let rate := weightedSum / totalWeight
      let effectiveSessions :=
        if 0 < effectiveCountDenom then
          jsRound ((totalWeight * totalWeight) / effectiveCountDenom)
        else 0
      some ⟨rate, effectiveSessions⟩

/-- One `(minutes, weight)` candidate of `estimateMinutes`. -/
structure Candidate where
  minutes : ℚ
  weight : ℚ
deriving Repr, DecidableEq

/-- `ETALearner.estimateMinutes(currentPos, baseMinutes, now)`: blend of the
base candidate (weight 0.5), the historical candidate (weight
`min(0.5, effectiveSessions * 0.04)`, present when the historical rate is
positive) and the live candidate (weight `min(0.4, sampleCount * 0.02)`,
present when the live rate is positive); weights renormalised, result
floored at 1 minute and rounded. -/
def estimateMinutes (texp : ℚ → ℚ) (cal : JsDate) (st : LearnerState)
    (currentPos : ℤ) (baseMinutes : ℚ) (nowMs : ℤ) : ℤ :=
  let historical := getHistoricalRate texp cal st nowMs
  let liveRate := getLiveRate st
  let histCandidates : List Candidate :=
    match historical with
    | some h =>
      if 0 < h.rate then
        [⟨(currentPos : ℚ) / h.rate * 60, min (1/2) ((h.effectiveSessions : ℚ) * (4/100))⟩]
      else []
    | none => []
  let liveCandidates : List Candidate :=
    match liveRate with
    | some r =>
      if 0 < r then
        [⟨(currentPos : ℚ) / r * 60, min (4/10) ((st.activeSamples.length : ℚ) * (2/100))⟩]
      else []
    | none => []
  let candidates : List Candidate := ⟨baseMinutes, 1/2⟩ :: (histCandidates ++ liveCandidates)
  let totalWeight := (candidates.map (fun c => c.weight)).sum
  let blended := (candidates.map (fun c => c.minutes * (c.weight / totalWeight))).sum
  max 1 (jsRound blended)

end TwoB

namespace TwoB

/-! ### The collector variants (src/queuelearner.js and the part_001 variant) -/

/-- Module-level state of the collector variant whose disconnect path reuses
`recordCompletedSession` (`learner`, `sessionActive`, `client`). -/
structure QLState where
  learner : LearnerState
  sessionActive : Bool
  client : Bool
deriving Repr, DecidableEq

/-- The collector's `savePartialSession()`: when a session is active, hand
whatever was tracked to `recordCompletedSession` (whose own guards decide
persistence) and mark the session inactive. -/
def savePartialSession (cal : JsDate) (st : QLState) (nowMs : ℤ) : QLState :=
  if st.sessionActive then
    { st with learner := recordCompletedSession cal st.learner nowMs, sessionActive := false }
  else st

/-- The collector's `onDisconnect` handler: guarded against double fire by
`if (!client) return; client = null`, then `savePartialSession()` and a
reconnect is scheduled (the timer and logging are not modelled here). -/
def qlOnDisconnect (cal : JsDate) (st : QLState) (nowMs : ℤ) : QLState :=
  if st.client = false then st
  else savePartialSession cal { st with client := false } nowMs

/-- Module-level state of src/queuelearner.js (the `recordSession`-based
collector): `client`, `sessionEntryPos`, `sessionEntryMs`, `currentPos`,
plus a count of persisted session records.  `learner.recordSession` is
called but not defined anywhere under src/, so the model records how many
times it was invoked rather than its effect on the store. -/
structure QLCState where
  client : Bool
  sessionEntryPos : Option ℤ
  sessionEntryMs : Option ℤ
  currentPos : Option ℤ
  savedSessions : ℕ
deriving Repr, DecidableEq

/-- `onDisconnect(reason)` of src/queuelearner.js (lines 194-221): no-op if
`client` is already null; otherwise clears `client`, saves a partial session
exactly when `sessionEntryPos !== null && currentPos !== null &&
currentPos < sessionEntryPos`, and resets the session-entry state.
(Status ticker, logging and the reconnect/shutdown logic are not modelled.) -/
def qlcOnDisconnect (st : QLCState) : QLCState :=
  if st.client = false then st
  else
    let saved : Bool :=
      match st.sessionEntryPos, st.currentPos with
      | some entry, some cur => cur < entry
      | _, _ => false
    { client := false
      sessionEntryPos := none
      sessionEntryMs := none
      currentPos := none
      savedSessions := st.savedSessions + (if saved then 1 else 0) }

/-- The guards under which `recordCompletedSession` actually persists a
session: JS-truthy start position and start time, duration at least 2
minutes, and the implied rate in (0, 10000].  Note: no condition on
position progress. -/
def persistGuards (cal : JsDate) (lst : LearnerState) (nowMs : ℤ) : Prop :=
  truthy lst.sessionStartPos = true ∧ truthy lst.sessionStartTime = true ∧
  2 * 60 * 1000 ≤ nowMs - lst.sessionStartTime.getD 0 ∧
  0 < (completedSession cal lst nowMs).positionsPerHour ∧
  (completedSession cal lst nowMs).positionsPerHour ≤ 10000

instance (cal : JsDate) (lst : LearnerState) (nowMs : ℤ) :
    Decidable (persistGuards cal lst nowMs) := by
  unfold persistGuards; infer_instance

/-! ### Lifecycle operations of the ETA learner as a transition system -/

/-- One call into `ETALearner`'s session-tracking API. -/
inductive LearnerOp where
  | beginOp (pos now : ℤ)
  | sampleOp (pos now : ℤ)
  | completeOp (now : ℤ)
deriving Repr, DecidableEq

/-- Apply one `ETALearner` call to the learner state. -/
def applyOp (cal : JsDate) (st : LearnerState) : LearnerOp → LearnerState
  | .beginOp p t => beginSession st p t
  | .sampleOp p t => recordSample st p t
  | .completeOp t => recordCompletedSession cal st t

/-! ### The proxy manager lifecycle (src/proxy.js) -/

/-- The configuration fields of src/config.js consumed by the modelled parts
of `ProxyManager`. -/
structure ProxyConfig where
  reconnectOnError : Bool
  antiAfkEnabled : Bool
  whitelist : Bool
  restartQueueInit : Bool
  notifyEnabled : Bool
  notifyThreshold : ℤ
deriving Repr, DecidableEq

/-- The values taken by `state.doing`: `'idle' | 'auth' | 'queue' |
'reconnecting' | 'connected'`. -/
inductive Doing where
  | idle
  | auth
  | queue
  | reconnecting
  | connected
deriving Repr, DecidableEq

/-- The values taken by `state.queuePlace`: `'None'`, `'DONE'`, or a number. -/
inductive QPlace where
  | noneStr
  | done
  | pos (n : ℤ)
deriving Repr, DecidableEq

/-- The `ProxyManager` fields relevant to the lifecycle claims.  The
anti-AFK object is `Option Bool` (`null` or an `AntiAFK` instance with its
`running` flag); `logCount` counts entries appended by `_log` (the `_logs`
ring buffer caps retention at 200 entries, which does not affect how many
entries a handler appends).  Display-only fields (`eta`, `finTime`,
`username`, `health`, `food`, `uptime`, `queueHistory`, MOTD) and the
wire/persistence side effects are not part of the model. -/
structure PState where
  isInQueue : Bool
  queuePlace : QPlace
  doing : Doing
  connected : Bool
  restartQueue : Bool
  finishedQueue : Bool
  stoppedByPlayer : Bool
  notificationSent : Bool
  conn : Bool
  proxyClient : Bool
  antiAfk : Option Bool
  antiAfkPending : Bool
  antiAfkActive : Bool
  reconnectTimer : Bool
  lastQueuePlace : Option ℤ
  queueStartPlace : Option ℤ
  logCount : ℕ
  learner : LearnerState
deriving Repr, DecidableEq

/-- `ProxyManager` state right after the constructor (no connections, idle,
empty learner). -/
def PState.init (cfg : ProxyConfig) : PState :=
  { isInQueue := false
    queuePlace := QPlace.noneStr
    doing := Doing.idle
    connected := false
    restartQueue := cfg.restartQueueInit
    finishedQueue := false
    stoppedByPlayer := false
    notificationSent := false
    conn := false
    proxyClient := false
    antiAfk := none
    antiAfkPending := false
    antiAfkActive := false
    reconnectTimer := false
    lastQueuePlace := none
    queueStartPlace := none
    logCount := 0
    learner := LearnerState.init }

/-- `this._log(message)`: append one entry (and emit it). -/
def pushLog (st : PState) : PState := { st with logCount := st.logCount + 1 }

/-- `AntiAFK.start()` (src/antiafk.js): `if (this.running ||
!this.options.enabled) return; this.running = true` — the timers it
schedules are not modelled. -/
def afkStart (enabled running : Bool) : Bool :=
  if running || !enabled then running else true

/-- `ProxyManager._cleanup()`: reset queue flags, stop and null the anti-AFK
instance, clear the reconnect timer, and drop all connections
(`client`, `proxyClient`, `server`, `conn`). -/
def cleanup (st : PState) : PState :=
  { st with
    finishedQueue := false
    notificationSent := false
    antiAfk := none
    reconnectTimer := false
    conn := false
    proxyClient := false }

/-- `ProxyManager._tryStartAntiAfk()`: start only if (configured or pending)
and no proxy client is connected and the queue is finished and the bot
connection exists. -/
def tryStartAntiAfk (cfg : ProxyConfig) (st : PState) : PState :=
  if cfg.antiAfkEnabled = false ∧ st.antiAfkPending = false then st
  else if st.proxyClient then st
  else if st.finishedQueue = false then st
  else if st.conn then
    { st with
      antiAfk := some (afkStart cfg.antiAfkEnabled false)
      antiAfkPending := true
      antiAfkActive := true }
  else st

/-- The synchronous part of `ProxyManager._reconnect()`: bail out if the
operator stopped the queue (consuming the flag); otherwise log and enter the
`reconnecting` state.  The `mc.ping` callback (which later calls `start()`
or arms a retry timer) is asynchronous and outside this step. -/
def reconnectSync (st : PState) : PState :=
  if st.stoppedByPlayer then { st with stoppedByPlayer := false }
  else { (pushLog st) with doing := Doing.reconnecting }

/-- `ProxyManager._handleQueueFinished()`: log, record the completed session
with the ETA learner, then either restart the queue (restart enabled and no
client attached: cleanup + reconnect) or mark the queue finished, switch to
the `connected` state and try to start anti-AFK.  (The `expandQueueData`
branch only rewrites the queue-data file; the bot `health` listener and the
`queueFinished` event are external effects.) -/
def handleQueueFinished (cfg : ProxyConfig) (cal : JsDate) (st : PState) (now : ℤ) : PState :=
  let st1 := pushLog st
  let st2 := { st1 with learner := recordCompletedSession cal st1.learner now }
  if st2.restartQueue = true ∧ st2.proxyClient = false then
    reconnectSync (cleanup (pushLog st2))
  else
    let st3 := { st2 with finishedQueue := true }
    let st4 := { st3 with queuePlace := QPlace.done, doing := Doing.connected, connected := true }
    tryStartAntiAfk cfg st4

/-- `charsStartWith pat l`: `pat` is an initial segment of `l`. -/
def charsStartWith : List Char → List Char → Bool
  | [], _ => true
  | _ :: _, [] => false
  | p :: ps, c :: cs => p == c && charsStartWith ps cs

/-- `charsOccur pat l`: `pat` occurs contiguously somewhere in `l`. -/
def charsOccur (pat : List Char) : List Char → Bool
  | [] => pat.isEmpty
  | c :: rest => charsStartWith pat (c :: rest) || charsOccur pat rest

/-- JS `String.prototype.includes`. -/
def jsIncludes (s pat : String) : Bool := charsOccur pat.toList s.toList

/-- The `'chat' | 'system_chat' | 'profileless_chat'` case of the packet
handler in `_setupQueueHandling`, applied to the flattened message text
(the output of `_extractChatText`): ignore everything once the queue
finished; log server queue notices; call `_handleQueueFinished()` exactly
when the text contains the finish marker `'Connected to the server'`. -/
def handleChat (cfg : ProxyConfig) (cal : JsDate) (st : PState) (msg : String) (now : ℤ) :
    PState :=
  if st.finishedQueue then st
  else
    let st1 :=
      if jsIncludes msg "Queued for server" || jsIncludes msg "already queued" then pushLog st
      else st
    if jsIncludes msg "Connected to the server" then handleQueueFinished cfg cal st1 now
    else st1

/-- The `'playerlist_header'` case of the packet handler, applied to the
position extracted from the flattened header text (`none` when no
`position in queue: N` pattern matched).  On the first reading of a session
it records the queue start and begins a learner session (plus a summary log);
every reading feeds `recordSample`; a changed reading updates the displayed
state (ETA strings and chart history are display-only), logs, and fires the
one-shot desktop notification at or below the threshold.  It never touches
`doing`/`connected`/`finishedQueue`. -/
def handleHeader (cfg : ProxyConfig) (cal : JsDate) (st : PState) (posOpt : Option ℤ)
    (now : ℤ) : PState :=
  if st.finishedQueue then st
  else
    match posOpt with
    | none => st
    | some p =>
      let st0 :=
        if st.lastQueuePlace = none then
          pushLog { st with
            queueStartPlace := some p
            learner := beginSession st.learner p now }
        else st
      let st1 := { st0 with learner := recordSample st0.learner p now }
      let st2 :=
        if st1.lastQueuePlace ≠ some p then
          let st' := pushLog { st1 with queuePlace := QPlace.pos p }
          if cfg.notifyEnabled = true ∧ p ≤ cfg.notifyThreshold ∧
              st'.notificationSent = false then
            { st' with notificationSent := true }
          else st'
        else st1
      { st2 with lastQueuePlace := some p }

/-- The `onDisconnect` closure of `_setupQueueHandling` (src/proxy.js lines
419-453), fired by both the `'end'` and `'error'` events: guarded by
`if (!this.conn) return` and `if (this.reconnectTimer) return`; logs the
disconnect, drops the proxy client, stops and nulls anti-AFK, updates state,
and — unless the operator stopped the queue or auto-reconnect is disabled —
logs again, enters `reconnecting` and arms the 30-second reconnect timer. -/
def onDisconnect (cfg : ProxyConfig) (st : PState) : PState :=
  if st.conn = false then st
  else if st.reconnectTimer then st
  else
    let st1 := pushLog st
    let st2 := { st1 with proxyClient := false }
    let st3 := { st2 with antiAfk := none }
    let st4 := { st3 with isInQueue := false, connected := false, antiAfkActive := false }
    if st4.stoppedByPlayer = false ∧ cfg.reconnectOnError = true then
      { (pushLog st4) with doing := Doing.reconnecting, reconnectTimer := true }
    else st4

/-- `ProxyManager.start()`: no-op (with a warning) when already in queue;
otherwise reset the stop flag, log, clean up, log the cached-auth status,
enter `auth` then — via `_setupQueueHandling` — the `queue` state with a
fresh per-session packet-handler closure (`lastQueuePlace = 'None'`), with
the upstream connection created.  (Auth options, the favicon and the local
server socket are external.) -/
def startStep (st : PState) : PState :=
  if st.isInQueue then pushLog st
  else
    let st1 := pushLog { st with stoppedByPlayer := false }
    let st2 := cleanup st1
    let st3 := pushLog st2
    let st4 := { st3 with doing := Doing.auth, isInQueue := true, conn := true }
    let st5 := { st4 with lastQueuePlace := none, doing := Doing.queue }
    pushLog st5

/-- `ProxyManager.stop()`: set the operator-stop flag, clear the anti-AFK
pending flag, clean up, reset the displayed state to idle, and log. -/
def stopStep (st : PState) : PState :=
  let st1 := cleanup { st with stoppedByPlayer := true, antiAfkPending := false }
  pushLog { st1 with
    isInQueue := false
    queuePlace := QPlace.noneStr
    doing := Doing.idle
    connected := false }

/-- The local server's `'login'` handler in `_setupLocalServer`
(src/proxy.js lines 528-570): log the player; reject when the whitelist is
on and the UUIDs differ; otherwise stop (but keep) any anti-AFK instance,
then link the player — on success the player becomes the attached
`proxyClient`, on a link failure it is turned away with a log. -/
def loginStep (cfg : ProxyConfig) (st : PState) (sameUuid linkOk : Bool) : PState :=
  let st1 := pushLog st
  if cfg.whitelist = true ∧ st1.conn = true ∧ sameUuid = false then pushLog st1
  else
    let st2 :=
      if st1.antiAfk.isSome then
        { st1 with antiAfk := st1.antiAfk.map (fun _ => false), antiAfkActive := false }
      else st1
    if linkOk then { st2 with proxyClient := true, connected := true }
    else pushLog st2

/-- The proxy client's `'end'` handler: log, detach the player, and try to
start anti-AFK again. -/
def playerEndStep (cfg : ProxyConfig) (st : PState) : PState :=
  let st1 := pushLog st
  tryStartAntiAfk cfg { st1 with proxyClient := false, connected := false }

/-- `ProxyManager.toggleAntiAfk()`: stop a running instance; start an
existing stopped instance (note: without re-checking `proxyClient` or
`finishedQueue`); with no instance yet, toggle the pending flag. -/
def toggleAfkStep (cfg : ProxyConfig) (st : PState) : PState :=
  match st.antiAfk with
  | some true =>
    { st with antiAfk := some false, antiAfkPending := false, antiAfkActive := false }
  | some false =>
    { st with
      antiAfk := some (afkStart cfg.antiAfkEnabled false)
      antiAfkPending := true
      antiAfkActive := true }
  | none =>
    pushLog { st with antiAfkPending := !st.antiAfkPending, antiAfkActive := !st.antiAfkPending }

/-- `ProxyManager.toggleRestart()`. -/
def toggleRestartStep (st : PState) : PState :=
  pushLog { st with restartQueue := !st.restartQueue }

/-- One inbound reaction of the proxy manager: an operator command, a parsed
packet signal, a local player attach/detach, or an upstream disconnect
notification. -/
inductive PEvent where
  | start
  | stop
  | header (posOpt : Option ℤ) (now : ℤ)
  | chat (msg : String) (now : ℤ)
  | login (sameUuid linkOk : Bool)
  | playerEnd
  | disconnect
  | toggleAfk
  | toggleRestart
deriving Repr, DecidableEq

/-- Dispatch one event to its handler. -/
def step (cfg : ProxyConfig) (cal : JsDate) (st : PState) : PEvent → PState
  | .start => startStep st
  | .stop => stopStep st
  | .header posOpt now => handleHeader cfg cal st posOpt now
  | .chat msg now => handleChat cfg cal st msg now
  | .login su lo => loginStep cfg st su lo
  | .playerEnd => playerEndStep cfg st
  | .disconnect => onDisconnect cfg st
  | .toggleAfk => toggleAfkStep cfg st
  | .toggleRestart => toggleRestartStep st

/-- Run a sequence of events from a state. -/
def run (cfg : ProxyConfig) (cal : JsDate) (st : PState) (evs : List PEvent) : PState :=
  evs.foldl (step cfg cal) st

/-- The anti-AFK gating invariant: the idle-prevention scheduler is never
running while a proxy client is attached. -/
def afkSafe (st : PState) : Prop :=
  ¬(st.antiAfk = some true ∧ st.proxyClient = true)

/-- A deployment configuration with auto-reconnect disabled
(`RECONNECT_ON_ERROR=false`), used as the failing input of the double-fire
guard. -/
def noReconnectCfg : ProxyConfig :=
  { reconnectOnError := false
    antiAfkEnabled := true
    whitelist := false
    restartQueueInit := false
    notifyEnabled := true
    notifyThreshold := 20 }

/-- The default deployment configuration (all src/config.js defaults:
auto-reconnect on, anti-AFK enabled, no whitelist, no restart-queue). -/
def defaultCfg : ProxyConfig :=
  { reconnectOnError := true
    antiAfkEnabled := true
    whitelist := false
    restartQueueInit := false
    notifyEnabled := true
    notifyThreshold := 20 }

/-- A trivial calendar (every timestamp mapping to Tuesday 10:00), used for
concrete witnesses where the calendar fields are irrelevant. -/
def cal0 : JsDate := ⟨fun _ => 2, fun _ => 10⟩


/-! ### Theorems about `ETALearner` -/

/-- C1 (counterexample): with no historical sessions and no live samples,
`estimateMinutes(1, 0)` returns 1, not `round(0) = 0` — the result is floored
at 1 minute (`Math.max(1, Math.round(blended))`), so it is not exactly
`round(baseMinutes)` for every `baseMinutes`. -/
theorem estimateMinutes_noData_not_round_cex :
    estimateMinutes (fun _ => 1) ⟨fun _ => 2, fun _ => 10⟩ LearnerState.init 1 0 0 ≠ jsRound 0 := by
  norm_num [estimateMinutes, getHistoricalRate, getLiveRate, LearnerState.init, jsRound]

/-- C1 (amended): with no stored historical sessions and fewer than 5 live
samples, `estimateMinutes` degenerates to the base candidate alone and
returns exactly `max(1, round(baseMinutes))`. -/
theorem estimateMinutes_noData (texp : ℚ → ℚ) (cal : JsDate) (st : LearnerState)
    (p : ℤ) (base : ℚ) (now : ℤ)
    (hsess : st.sessions = []) (hsamp : st.activeSamples.length < 5) :
    estimateMinutes texp cal st p base now = max 1 (jsRound base) := by
  simp only [estimateMinutes, getHistoricalRate, getLiveRate, hsess, List.length_nil,
    if_pos rfl, if_pos hsamp]
  norm_num

/-- C1 (witness): the amended theorem at `p = 1`, `baseMinutes = 480` on a
fresh learner, matching the repository's own test expectation of 480. -/
theorem estimateMinutes_noData_witness :
    estimateMinutes (fun _ => 1) ⟨fun _ => 2, fun _ => 10⟩ LearnerState.init 1 480 0 = 480 :=
  (estimateMinutes_noData (fun _ => 1) ⟨fun _ => 2, fun _ => 10⟩ LearnerState.init 1 480 0
    rfl (by decide)).trans (by norm_num [jsRound])

/-- C2 (counterexample): a 61-second session (below the 2-minute threshold)
is not persisted, but the active-session state is NOT cleared: the session
start position is still set after `recordCompletedSession` returns. -/
theorem recordCompletedSession_short_cex :
    (recordCompletedSession ⟨fun _ => 2, fun _ => 10⟩
      (beginSession LearnerState.init 500 1000) 62000).sessionStartPos ≠ none := by
  decide

/-- C2 (amended): for an active session of duration under 2 minutes,
`recordCompletedSession` is a complete no-op — it persists nothing and leaves
the learner state (including the active-session fields) unchanged; the
active-session state is cleared only on the successful persist path. -/
theorem recordCompletedSession_short (cal : JsDate) (st : LearnerState) (now : ℤ)
    (hpos : truthy st.sessionStartPos = true) (htime : truthy st.sessionStartTime = true)
    (hshort : now - st.sessionStartTime.getD 0 < 2 * 60 * 1000) :
    recordCompletedSession cal st now = st := by
  have h1 : (truthy st.sessionStartPos = false ∨ truthy st.sessionStartTime = false) = False := by
    simp [hpos, htime]
  simp only [recordCompletedSession, h1, if_false]
  exact if_pos hshort

/-- C2 (witness): the amended theorem on a concrete 61-second session. -/
theorem recordCompletedSession_short_witness :
    recordCompletedSession ⟨fun _ => 2, fun _ => 10⟩
      (beginSession LearnerState.init 500 1000) 62000 =
      beginSession LearnerState.init 500 1000 :=
  recordCompletedSession_short _ _ _ (by decide) (by decide) (by decide)

/-- C3 (counterexample): calling `beginSession` again while a session is
already active is not a no-op — starting at position 100 and calling
`beginSession(42)` again changes the stored start position. -/
theorem beginSession_not_noop_cex :
    beginSession (beginSession LearnerState.init 100 50) 42 60 ≠
      beginSession LearnerState.init 100 50 := by
  decide

/-- C3 (amended): `beginSession` has no redundancy guard; called while a
session is already active it restarts tracking — it overwrites the session
start position and start time and resets the live window to a single sample —
while leaving the stored session list untouched. -/
theorem beginSession_overwrites (st : LearnerState) (p now : ℤ)
    (_hactive : truthy st.sessionStartPos = true) :
    (beginSession st p now).sessionStartPos = some p ∧
    (beginSession st p now).sessionStartTime = some now ∧
    (beginSession st p now).activeSamples = [⟨now, p⟩] ∧
    (beginSession st p now).sessions = st.sessions :=
  ⟨rfl, rfl, rfl, rfl⟩

/-- C3 (witness): the amended theorem on a concrete active session. -/
theorem beginSession_overwrites_witness :
    (beginSession (beginSession LearnerState.init 100 50) 42 60).sessionStartPos = some 42 ∧
    (beginSession (beginSession LearnerState.init 100 50) 42 60).sessionStartTime = some 60 ∧
    (beginSession (beginSession LearnerState.init 100 50) 42 60).activeSamples = [⟨60, 42⟩] ∧
    (beginSession (beginSession LearnerState.init 100 50) 42 60).sessions =
      (beginSession LearnerState.init 100 50).sessions :=
  beginSession_overwrites (beginSession LearnerState.init 100 50) 42 60 (by decide)

/-- C10: a session begun at starting position 0 is never persisted —
`recordCompletedSession` bails out on the JS-falsy start position
(`!this.sessionStartPos` is true for 0), treating it like the absence of an
active session, so the whole call is a no-op for any completion time. -/
theorem beginSessionZero_never_persists (cal : JsDate) (st : LearnerState) (t now : ℤ) :
    recordCompletedSession cal (beginSession st 0 t) now = beginSession st 0 t := by
  simp [recordCompletedSession, beginSession, truthy]

end TwoB

namespace TwoB

/-! ### The Kish effective sample size of `_getHistoricalRate` (C4) -/

/-- Indices produced by `enumFrom` are below the starting index plus the
list length. -/
theorem fst_lt_of_mem_enumFrom {α : Type _} :
    ∀ (l : List α) (k : ℕ) (p : ℕ × α), p ∈ l.enumFrom k → p.1 < k + l.length := by
  intro l
  induction l with
  | nil => intro k p h; simp [List.enumFrom] at h
  | cons a t ih =>
    intro k p h
    rw [List.enumFrom, List.mem_cons] at h
    rcases h with rfl | h
    · simp
    · have := ih (k + 1) p h
      simp only [List.length_cons]
      omega

/-- Cauchy–Schwarz for list sums: `(Σ w)² ≤ n · Σ w²`. -/
theorem sq_list_sum_le (l : List ℚ) :
    l.sum ^ 2 ≤ (l.length : ℚ) * (l.map (fun x => x * x)).sum := by
  induction l with
  | nil => simp
  | cons a t ih =>
    cases t with
    | nil => simp; nlinarith [sq_nonneg a]
    | cons b t' =>
      set u : List ℚ := b :: t' with hu
      have hQ : 0 ≤ (u.map (fun x => x * x)).sum :=
        List.sum_nonneg fun x hx => by
          obtain ⟨y, -, rfl⟩ := List.mem_map.mp hx
          exact mul_self_nonneg y
      have hn1 : (1 : ℚ) ≤ (u.length : ℚ) := by
        rw [hu]; simp only [List.length_cons]; push_cast; linarith [Nat.cast_nonneg (α := ℚ) t'.length]
      have hprod : 0 ≤ ((u.length : ℚ) + 1) *
          ((u.length : ℚ) * (u.map (fun x => x * x)).sum - u.sum ^ 2) :=
        mul_nonneg (by linarith) (by linarith [ih])
      simp only [List.sum_cons, List.map_cons, List.length_cons]
      push_cast
      nlinarith [sq_nonneg ((u.length : ℚ) * a - u.sum), hprod, hn1, hQ]

/-- For nonnegative entries the sum of squares is at most the square of the
sum: `Σ w² ≤ (Σ w)²`. -/
theorem list_sum_sq_le (l : List ℚ) (h : ∀ x ∈ l, 0 ≤ x) :
    (l.map (fun x => x * x)).sum ≤ l.sum ^ 2 := by
  induction l with
  | nil => simp
  | cons a t ih =>
    have ha : 0 ≤ a := h a (List.mem_cons_self _ _)
    have ht : ∀ x ∈ t, 0 ≤ x := fun x hx => h x (List.mem_cons_of_mem _ hx)
    have hS : 0 ≤ t.sum := List.sum_nonneg ht
    have hQ := ih ht
    simp only [List.sum_cons, List.map_cons]
    nlinarith [mul_nonneg ha hS]

/-- Every per-session weight of `_getHistoricalRate` is strictly positive
when the exponential is (which `Math.exp` always is): the Gaussian factor is
positive, the day-type factor is 1 or 0.35, and the recency rank factor
`(n-i)/n` is positive for `i < n`. -/
theorem sessionWeight_pos (texp : ℚ → ℚ) (htexp : ∀ x, 0 < texp x)
    (hour : ℤ) (wk : Bool) {n i : ℕ} (hi : i < n) (s : Session) :
    0 < sessionWeight texp hour wk n i s := by
  simp only [sessionWeight]
  have hd : (0 : ℚ) < if isWeekendDay s.dayOfWeek = wk then 1 else 35/100 := by
    split <;> norm_num
  have hnq : (0 : ℚ) < (n : ℚ) := by exact_mod_cast Nat.pos_of_ne_zero (by omega)
  have hr : (0 : ℚ) < ((n : ℚ) - (i : ℚ)) / (n : ℚ) := by
    apply div_pos _ hnq
    have hi' : (i : ℚ) < (n : ℚ) := by exact_mod_cast hi
    linarith
  exact mul_pos (mul_pos (htexp _) hd) hr

/-- `0 < ⌊x + 1/2⌋` once `1 ≤ x`. -/
theorem jsRound_pos {x : ℚ} (h : 1 ≤ x) : 0 < jsRound x := by
  have : (1 : ℤ) ≤ ⌊x + 1/2⌋ := by
    rw [Int.le_floor]
    push_cast
    linarith
  unfold jsRound
  omega

/-- `⌊x + 1/2⌋ ≤ n` once `x ≤ n`. -/
theorem jsRound_le_nat {x : ℚ} {n : ℕ} (h : x ≤ (n : ℚ)) : jsRound x ≤ (n : ℤ) := by
  have : ⌊x + 1/2⌋ < (n : ℤ) + 1 := by
    rw [Int.floor_lt]
    push_cast
    linarith
  unfold jsRound
  omega

/-- C4: the `effectiveSessions` value returned by `_getHistoricalRate` — the
rounded Kish effective sample size `(Σw)²/Σw²` — is at most the raw number of
stored sessions and strictly positive, whenever `Math.exp` outputs are
positive (so every session carries nonzero weight). -/
theorem getHistoricalRate_kish (texp : ℚ → ℚ) (htexp : ∀ x, 0 < texp x)
    (cal : JsDate) (st : LearnerState) (nowMs : ℤ) (r : HistResult)
    (h : getHistoricalRate texp cal st nowMs = some r) :
    0 < r.effectiveSessions ∧ r.effectiveSessions ≤ (st.sessions.length : ℤ) := by
  rw [getHistoricalRate] at h
  by_cases hlen : st.sessions.length = 0
  · rw [if_pos hlen] at h; exact absurd h (by simp)
  rw [if_neg hlen] at h
  set sorted := sortByRecency st.sessions with hsoreq
  set n := sorted.length with hneq
  set ws := sorted.enum.map
    (fun p => sessionWeight texp (cal.getHours nowMs) (isWeekendDay (cal.getDay nowMs)) n p.1 p.2)
    with hws
  have hsortedlen : sorted.length = st.sessions.length := by
    rw [hsoreq]; exact List.length_insertionSort _ _
  have hwslen : ws.length = st.sessions.length := by
    rw [hws, List.length_map, List.enum_length, hsortedlen]
  have hwpos : ∀ w ∈ ws, 0 < w := by
    intro w hw
    rw [hws] at hw
    obtain ⟨p, hp, rfl⟩ := List.mem_map.mp hw
    have hlt : p.1 < n := by
      have := fst_lt_of_mem_enumFrom sorted 0 p hp
      omega
    exact sessionWeight_pos texp htexp _ _ hlt _
  have hwne : ws ≠ [] := by
    intro hnil
    rw [hnil] at hwslen
    exact hlen hwslen.symm
  have hW : 0 < ws.sum := List.sum_pos ws hwpos hwne
  have hQpos : 0 < (ws.map (fun w => w * w)).sum := by
    apply List.sum_pos
    · intro x hx
      obtain ⟨y, hy, rfl⟩ := List.mem_map.mp hx
      exact mul_pos (hwpos y hy) (hwpos y hy)
    · intro hnil
      exact hwne (List.map_eq_nil.mp hnil)
  rw [if_neg (by exact ne_of_gt hW)] at h
  have hr : r = ⟨_, _⟩ := (Option.some.inj h).symm
  have hess : r.effectiveSessions =
      jsRound (ws.sum * ws.sum / (ws.map (fun w => w * w)).sum) := by
    rw [hr]
    simp only [if_pos hQpos]
  rw [hess]
  constructor
  · apply jsRound_pos
    rw [one_le_div hQpos]
    have := list_sum_sq_le ws (fun x hx => le_of_lt (hwpos x hx))
    nlinarith
  · rw [← hwslen]
    apply jsRound_le_nat
    rw [div_le_iff hQpos]
    have := sq_list_sum_le ws
    nlinarith

/-- C4 (witness): on a single stored session the Kish effective-sessions
value is 1, which is positive and at most the raw count 1. -/
theorem getHistoricalRate_kish_witness :
    0 < (1 : ℤ) ∧ (1 : ℤ) ≤ (({ LearnerState.init with
        sessions := [⟨500, 0, 3600000, 3600000, 2, 10, 100⟩] } : LearnerState).sessions.length : ℤ) := by
  have h : getHistoricalRate (fun _ => 1) ⟨fun _ => 2, fun _ => 10⟩
      ({ LearnerState.init with sessions := [⟨500, 0, 3600000, 3600000, 2, 10, 100⟩] }) 0 =
      some ⟨100, 1⟩ := by
    norm_num [getHistoricalRate, sortByRecency, List.insertionSort, LearnerState.init,
      List.enum, List.enumFrom, sessionWeight, isWeekendDay, jsRound]
  have := getHistoricalRate_kish (fun _ => 1) (fun _ => by norm_num)
    ⟨fun _ => 2, fun _ => 10⟩
    ({ LearnerState.init with sessions := [⟨500, 0, 3600000, 3600000, 2, 10, 100⟩] }) 0
    ⟨100, 1⟩ h
  exact this

end TwoB

namespace TwoB

/-! ### Disconnect-time persistence (C5) and the bounded session log (C8) -/

/-- Characterization of `recordCompletedSession`'s effect on the stored
session list: the session is appended (evicting the oldest entry past the
cap) exactly when `persistGuards` hold, else the list is untouched. -/
theorem recordCompletedSession_sessions_spec (cal : JsDate) (lst : LearnerState) (now : ℤ) :
    (recordCompletedSession cal lst now).sessions =
      if persistGuards cal lst now then
        (if (lst.sessions ++ [completedSession cal lst now]).length > MAX_SESSIONS
         then (lst.sessions ++ [completedSession cal lst now]).tail
         else lst.sessions ++ [completedSession cal lst now])
      else lst.sessions := by
  simp only [recordCompletedSession]
  by_cases h1 : truthy lst.sessionStartPos = false ∨ truthy lst.sessionStartTime = false
  · rw [if_pos h1, if_neg]
    rintro ⟨hp, ht, -⟩
    rcases h1 with h | h
    · simp [h] at hp
    · simp [h] at ht
  · rw [if_neg h1]
    push_neg at h1
    obtain ⟨hp', ht'⟩ := h1
    have hp : truthy lst.sessionStartPos = true := Bool.ne_false_iff.mp hp'
    have ht : truthy lst.sessionStartTime = true := Bool.ne_false_iff.mp ht'
    by_cases h2 : now - lst.sessionStartTime.getD 0 < 2 * 60 * 1000
    · rw [if_pos h2, if_neg]
      rintro ⟨-, -, hd, -⟩
      omega
    · rw [if_neg h2]
      by_cases h3 : (completedSession cal lst now).positionsPerHour ≤ 0 ∨
          (completedSession cal lst now).positionsPerHour > 10000
      · rw [if_pos h3, if_neg]
        rintro ⟨-, -, -, hr1, hr2⟩
        rcases h3 with h | h <;> omega
      · rw [if_neg h3]
        push_neg at h3
        rw [if_pos (show persistGuards cal lst now from ⟨hp, ht, by omega, h3.1, h3.2⟩)]

/-- Session-tracking calls never push the stored list past `MAX_SESSIONS`. -/
theorem applyOp_sessions_le (cal : JsDate) (st : LearnerState) (op : LearnerOp)
    (h : st.sessions.length ≤ MAX_SESSIONS) :
    (applyOp cal st op).sessions.length ≤ MAX_SESSIONS := by
  cases op with
  | beginOp p t => exact h
  | sampleOp p t => exact h
  | completeOp t =>
    show (recordCompletedSession cal st t).sessions.length ≤ MAX_SESSIONS
    rw [recordCompletedSession_sessions_spec]
    split_ifs with hg he
    · simp only [List.length_tail, List.length_append, List.length_singleton]
      omega
    · simp only [List.length_append, List.length_singleton] at he ⊢
      omega
    · exact h

/-- C8: starting from a stored list of at most `MAX_SESSIONS = 500` entries,
no sequence of `ETALearner` calls ever pushes the list past the cap; and a
persisting `recordCompletedSession` appends at the back, evicting exactly
the front (oldest) entry when the list already sits at the cap, so FIFO
order is preserved. -/
theorem sessionLog_bounded_fifo (cal : JsDate) (st : LearnerState) (ops : List LearnerOp)
    (now : ℤ) (hlen : st.sessions.length ≤ MAX_SESSIONS) :
    (ops.foldl (applyOp cal) st).sessions.length ≤ MAX_SESSIONS ∧
    (persistGuards cal st now →
      (recordCompletedSession cal st now).sessions =
        if st.sessions.length = MAX_SESSIONS
        then st.sessions.tail ++ [completedSession cal st now]
        else st.sessions ++ [completedSession cal st now]) := by
  constructor
  · induction ops generalizing st with
    | nil => simpa using hlen
    | cons op rest ih =>
      rw [List.foldl_cons]
      exact ih _ (applyOp_sessions_le cal st op hlen)
  · intro hg
    rw [recordCompletedSession_sessions_spec, if_pos hg]
    by_cases hfull : st.sessions.length = MAX_SESSIONS
    · rw [if_pos hfull, if_pos (by simp [List.length_append]; omega)]
      have hne : st.sessions ≠ [] := by
        intro hnil
        rw [hnil] at hfull
        simp [MAX_SESSIONS] at hfull
      obtain ⟨a, t, heq⟩ : ∃ a t, st.sessions = a :: t := by
        cases hs : st.sessions with
        | nil => exact absurd hs hne
        | cons a t => exact ⟨a, t, rfl⟩
      rw [heq]
      rfl
    · rw [if_neg hfull, if_neg (by simp [List.length_append]; omega)]

/-- C8 (witness): the bound and the FIFO append on a concrete learner with
one active 10-minute session completing into an empty store. -/
theorem sessionLog_bounded_fifo_witness :
    (([LearnerOp.completeOp 601000].foldl (applyOp cal0)
        (beginSession LearnerState.init 600 1000)).sessions.length ≤ MAX_SESSIONS) ∧
    (persistGuards cal0 (beginSession LearnerState.init 600 1000) 601000 →
      (recordCompletedSession cal0 (beginSession LearnerState.init 600 1000) 601000).sessions =
        if (beginSession LearnerState.init 600 1000).sessions.length = MAX_SESSIONS
        then (beginSession LearnerState.init 600 1000).sessions.tail ++
          [completedSession cal0 (beginSession LearnerState.init 600 1000) 601000]
        else (beginSession LearnerState.init 600 1000).sessions ++
          [completedSession cal0 (beginSession LearnerState.init 600 1000) 601000]) :=
  sessionLog_bounded_fifo cal0 (beginSession LearnerState.init 600 1000)
    [LearnerOp.completeOp 601000] 601000 (by decide)

/-- C5 (counterexample): a disconnect in the part_001 collector variant with
an active 3-minute session and NO position progress (the only observed
position equals the starting position 500) still persists a session record:
the disconnect path delegates to `recordCompletedSession`, which never looks
at the current position. -/
theorem disconnect_no_progress_persists_cex :
    (beginSession LearnerState.init 500 1000).activeSamples.getLast? =
      some (Sample.mk 1000 500) ∧
    (qlOnDisconnect cal0 ⟨beginSession LearnerState.init 500 1000, true, true⟩
        181000).learner.sessions.length = 1 := by
  constructor
  · decide
  · norm_num [qlOnDisconnect, savePartialSession, recordCompletedSession, completedSession,
      beginSession, LearnerState.init, truthy, jsRound, MAX_SESSIONS]

/-- C5 (amended): what each collector's disconnect handler actually
persists.  In the part_001 variant, a disconnect with a live client persists
a session record exactly when a session is active and
`recordCompletedSession`'s own guards pass (duration ≥ 2 minutes, implied
rate in (0, 10000]) — independent of position progress.  In
src/queuelearner.js, `onDisconnect` records a partial session exactly when a
position was observed strictly below the session's entry position. -/
theorem disconnect_persistence (cal : JsDate) (st : QLState) (now : ℤ) (st' : QLCState)
    (hc : st.client = true) (hc' : st'.client = true) :
    ((qlOnDisconnect cal st now).learner.sessions =
      if st.sessionActive = true ∧ persistGuards cal st.learner now then
        (if (st.learner.sessions ++ [completedSession cal st.learner now]).length > MAX_SESSIONS
         then (st.learner.sessions ++ [completedSession cal st.learner now]).tail
         else st.learner.sessions ++ [completedSession cal st.learner now])
      else st.learner.sessions) ∧
    ((qlcOnDisconnect st').savedSessions = st'.savedSessions + 1 ↔
      ∃ e c, st'.sessionEntryPos = some e ∧ st'.currentPos = some c ∧ c < e) := by
  constructor
  · rw [qlOnDisconnect, if_neg (by simp [hc])]
    by_cases ha : st.sessionActive = true
    · rw [savePartialSession]
      simp only [ha, if_true]
      rw [recordCompletedSession_sessions_spec]
      simp [ha]
    · rw [savePartialSession]
      simp only [ha]
      simp only [Bool.not_eq_true] at ha
      simp [ha]
  · rw [qlcOnDisconnect, if_neg (by simp [hc'])]
    cases he : st'.sessionEntryPos with
    | none => simp [he]
    | some e =>
      cases hcur : st'.currentPos with
      | none => simp [he, hcur]
      | some c =>
        by_cases hlt : c < e
        · simp [he, hcur, hlt]
        · simp [he, hcur, hlt]

/-- C5 (witness): the amended characterization at a concrete disconnect in
each variant (active 3-minute session in the part_001 variant; entry 500 and
current 450 in the src/queuelearner.js variant). -/
theorem disconnect_persistence_witness :
    ((qlOnDisconnect cal0 ⟨beginSession LearnerState.init 500 1000, true, true⟩
        181000).learner.sessions =
      if (true : Bool) = true ∧
          persistGuards cal0 (beginSession LearnerState.init 500 1000) 181000 then
        (if ((beginSession LearnerState.init 500 1000).sessions ++
              [completedSession cal0 (beginSession LearnerState.init 500 1000) 181000]).length >
            MAX_SESSIONS
         then ((beginSession LearnerState.init 500 1000).sessions ++
            [completedSession cal0 (beginSession LearnerState.init 500 1000) 181000]).tail
         else (beginSession LearnerState.init 500 1000).sessions ++
            [completedSession cal0 (beginSession LearnerState.init 500 1000) 181000])
      else (beginSession LearnerState.init 500 1000).sessions) ∧
    ((qlcOnDisconnect ⟨true, some 500, some 1000, some 450, 0⟩).savedSessions = 0 + 1 ↔
      ∃ e c, (some (500 : ℤ)) = some e ∧ (some (450 : ℤ)) = some c ∧ c < e) :=
  disconnect_persistence cal0 ⟨beginSession LearnerState.init 500 1000, true, true⟩ 181000
    ⟨true, some 500, some 1000, some 450, 0⟩ rfl rfl

end TwoB

namespace TwoB

/-! ### Queue-finish detection (C6), the disconnect double-fire guard (C7)
and the anti-AFK gating invariant (C9) -/

/-- `_tryStartAntiAfk` never changes the lifecycle-state fields. -/
theorem tryStartAntiAfk_fields (cfg : ProxyConfig) (st : PState) :
    (tryStartAntiAfk cfg st).doing = st.doing ∧
    (tryStartAntiAfk cfg st).connected = st.connected ∧
    (tryStartAntiAfk cfg st).finishedQueue = st.finishedQueue ∧
    (tryStartAntiAfk cfg st).proxyClient = st.proxyClient := by
  unfold tryStartAntiAfk
  split_ifs <;> exact ⟨rfl, rfl, rfl, rfl⟩

/-- C6 (counterexample): the finish marker arriving while restart-queue mode
is on with no attached client does NOT yield the `connected` state — the
manager logs, cleans up and re-queues (`reconnecting`) instead.  So the
lifecycle does not transition to `connected` exactly when the marker is
extracted. -/
theorem finish_marker_restart_cex :
    (handleChat defaultCfg cal0
      { PState.init defaultCfg with
          restartQueue := true, conn := true, isInQueue := true,
          doing := Doing.queue, lastQueuePlace := some 15, queuePlace := QPlace.pos 15 }
      "Connected to the server" 5000).doing ≠ Doing.connected := by
  decide

/-- C6 (amended): position readings never drive the lifecycle to `connected`
(for any value, 0 included, a header reading leaves `doing`, `connected` and
`finishedQueue` untouched); the textual finish marker drives it to
`connected` regardless of the last reported position, provided the queue is
not already finished and the restart-and-requeue path (restart enabled with
no attached client) is not taken; and `doing` can become `connected` only
when it already was or the chat text contains the marker. -/
theorem finish_marker_drives_connected
    (cfg : ProxyConfig) (cal : JsDate) (st : PState) (posOpt : Option ℤ)
    (msg : String) (now now' : ℤ)
    (hnf : st.finishedQueue = false)
    (hmark : jsIncludes msg "Connected to the server" = true)
    (hnorestart : st.restartQueue = true → st.proxyClient = true) :
    ((handleHeader cfg cal st posOpt now).doing = st.doing ∧
     (handleHeader cfg cal st posOpt now).connected = st.connected ∧
     (handleHeader cfg cal st posOpt now).finishedQueue = st.finishedQueue) ∧
    (handleChat cfg cal st msg now').doing = Doing.connected ∧
    (∀ (msg' : String) (now'' : ℤ), (handleChat cfg cal st msg' now'').doing = Doing.connected →
      st.doing = Doing.connected ∨ jsIncludes msg' "Connected to the server" = true) := by
  refine ⟨?_, ?_, ?_⟩
  · cases posOpt with
    | none => simp [handleHeader]
    | some p =>
      simp only [handleHeader, pushLog]
      split_ifs <;> simp
  · unfold handleChat
    rw [if_neg (by simp [hnf])]
    have hgen : ∀ st1 : PState, st1.restartQueue = st.restartQueue →
        st1.proxyClient = st.proxyClient →
        (handleQueueFinished cfg cal st1 now').doing = Doing.connected := by
      intro st1 hr hpc
      unfold handleQueueFinished
      rw [if_neg]
      · exact (tryStartAntiAfk_fields cfg _).1
      · rintro ⟨hrt, hpf⟩
        simp only [pushLog] at hrt hpf
        rw [hr] at hrt
        rw [hpc] at hpf
        rw [hnorestart hrt] at hpf
        exact Bool.noConfusion hpf
    rw [if_pos hmark]
    split_ifs with hq
    · exact hgen (pushLog st) rfl rfl
    · exact hgen st rfl rfl
  · intro msg' now'' h
    by_cases hm : jsIncludes msg' "Connected to the server" = true
    · exact Or.inr hm
    · left
      simp only [handleChat] at h
      rw [if_neg (by simp [hnf]), if_neg hm] at h
      split_ifs at h <;> exact h

/-- C6 (witness): the spec's scenario — the finish marker arrives while the
position is still reported as 15 (restart mode off) — yields `connected`. -/
theorem finish_marker_drives_connected_witness :
    (handleChat defaultCfg cal0
      { PState.init defaultCfg with
          conn := true, isInQueue := true, doing := Doing.queue,
          lastQueuePlace := some 15, queuePlace := QPlace.pos 15 }
      "Connected to the server" 5000).doing = Doing.connected :=
  (finish_marker_drives_connected defaultCfg cal0
    { PState.init defaultCfg with
        conn := true, isInQueue := true, doing := Doing.queue,
        lastQueuePlace := some 15, queuePlace := QPlace.pos 15 }
    (some 15) "Connected to the server" 5000 5000
    rfl (by decide) (by decide)).2.1

/-- C7: the disconnect double-fire guard of src/proxy.js fails when
auto-reconnect is disabled (`RECONNECT_ON_ERROR=false`).  After `start()`
and a first disconnect notification, a second notification for the same
failure is NOT a no-op: `conn` was never cleared and no reconnect timer was
armed, so the guard falls through and a duplicate `Disconnected:` log entry
is appended.  Under the default configuration (auto-reconnect on) the armed
timer does make the second notification a no-op — matching the guard
comment's intent and the spec. -/
theorem onDisconnect_double_fire_bug :
    ((onDisconnect noReconnectCfg
        (onDisconnect noReconnectCfg (startStep (PState.init noReconnectCfg)))).logCount =
      (onDisconnect noReconnectCfg (startStep (PState.init noReconnectCfg))).logCount + 1 ∧
     onDisconnect noReconnectCfg
        (onDisconnect noReconnectCfg (startStep (PState.init noReconnectCfg))) ≠
      onDisconnect noReconnectCfg (startStep (PState.init noReconnectCfg))) ∧
    onDisconnect defaultCfg
        (onDisconnect defaultCfg (startStep (PState.init defaultCfg))) =
      onDisconnect defaultCfg (startStep (PState.init defaultCfg)) := by
  decide

/-- `_tryStartAntiAfk` preserves the anti-AFK gating invariant: it refuses
to start while a proxy client is attached. -/
theorem afkSafe_tryStart (cfg : ProxyConfig) (st : PState) (h : afkSafe st) :
    afkSafe (tryStartAntiAfk cfg st) := by
  unfold tryStartAntiAfk
  split_ifs with h1 h2 h3 h4
  · exact h
  · exact h
  · exact h
  · exact fun hc => h2 hc.2
  · exact h

/-- Every modelled reaction except the manual anti-AFK toggle preserves the
anti-AFK gating invariant. -/
theorem afkSafe_step (cfg : ProxyConfig) (cal : JsDate) (st : PState) (e : PEvent)
    (h : afkSafe st) (hne : e ≠ PEvent.toggleAfk) : afkSafe (step cfg cal st e) := by
  cases e with
  | start =>
    show afkSafe (startStep st)
    simp only [startStep, cleanup, pushLog]
    split_ifs
    · exact h
    · exact fun hc => Option.noConfusion hc.1
  | stop =>
    show afkSafe (stopStep st)
    simp only [stopStep, cleanup, pushLog]
    exact fun hc => Option.noConfusion hc.1
  | header posOpt now =>
    show afkSafe (handleHeader cfg cal st posOpt now)
    cases posOpt with
    | none =>
      simp only [handleHeader]
      split_ifs <;> exact h
    | some p =>
      simp only [handleHeader, pushLog]
      split_ifs <;> exact fun hc => h ⟨hc.1, hc.2⟩
  | chat msg now =>
    show afkSafe (handleChat cfg cal st msg now)
    have hq : ∀ st1 : PState, afkSafe st1 → afkSafe (handleQueueFinished cfg cal st1 now) := by
      intro st1 h1
      simp only [handleQueueFinished, pushLog]
      split_ifs with h4
      · simp only [reconnectSync, cleanup, pushLog]
        split_ifs
        · exact fun hc => Option.noConfusion hc.1
        · exact fun hc => Option.noConfusion hc.1
      · apply afkSafe_tryStart
        exact fun hc => h1 ⟨hc.1, hc.2⟩
    simp only [handleChat, pushLog]
    split_ifs <;>
      first
        | exact h
        | exact fun hc => h ⟨hc.1, hc.2⟩
        | exact hq _ h
        | exact hq _ (fun hc => h ⟨hc.1, hc.2⟩)
  | login su lo =>
    show afkSafe (loginStep cfg st su lo)
    simp only [loginStep, pushLog]
    split_ifs <;> intro hc <;>
      first
        | exact h ⟨hc.1, hc.2⟩
        | exact (by
            have ha : Option.map (fun _ => false) st.antiAfk = some true := hc.1
            cases hs : st.antiAfk with
            | none => rw [hs] at ha; exact Option.noConfusion ha
            | some b => rw [hs] at ha; simp at ha)
        | exact (by
            have ha : st.antiAfk = some true := hc.1
            have hsome : st.antiAfk.isSome = true := by rw [ha]; rfl
            simp_all)
  | playerEnd =>
    show afkSafe (playerEndStep cfg st)
    simp only [playerEndStep, pushLog]
    apply afkSafe_tryStart
    exact fun hc => Bool.noConfusion hc.2
  | disconnect =>
    show afkSafe (onDisconnect cfg st)
    simp only [onDisconnect, pushLog]
    split_ifs
    · exact h
    · exact h
    · exact fun hc => Option.noConfusion hc.1
    · exact fun hc => Option.noConfusion hc.1
  | toggleAfk => exact absurd rfl hne
  | toggleRestart =>
    show afkSafe (toggleRestartStep st)
    simp only [toggleRestartStep, pushLog]
    exact fun hc => h ⟨hc.1, hc.2⟩

/-- C9 (counterexample): a reachable event sequence — queue finishes with no
client (anti-AFK auto-starts), a player attaches (anti-AFK stops but the
instance is kept), the operator hits the anti-AFK toggle — ends with the
idle-prevention scheduler RUNNING while the external consumer is attached:
`toggleAntiAfk` restarts an existing stopped instance without re-checking
`proxyClient`. -/
theorem antiAfk_toggle_with_client_cex :
    (run defaultCfg cal0 (PState.init defaultCfg)
      [PEvent.start, PEvent.chat "Connected to the server" 5000,
       PEvent.login true true, PEvent.toggleAfk]).antiAfk = some true ∧
    (run defaultCfg cal0 (PState.init defaultCfg)
      [PEvent.start, PEvent.chat "Connected to the server" 5000,
       PEvent.login true true, PEvent.toggleAfk]).proxyClient = true := by
  decide

/-- C9 (amended): in every state reachable from the initial proxy state by
the modelled reactions WITHOUT the manual anti-AFK toggle command, the
idle-prevention scheduler never runs while a proxy client is attached;
`_tryStartAntiAfk` is a no-op whenever a client is attached or the queue is
not finished; and a player attach always leaves the invariant intact (it
stops a running instance before linking).  The manual `toggleAntiAfk`
command is the exception: it can restart a kept instance while a client is
attached. -/
theorem antiAfk_gating (cfg : ProxyConfig) (cal : JsDate) (evs : List PEvent)
    (hnt : ∀ e ∈ evs, e ≠ PEvent.toggleAfk) :
    afkSafe (run cfg cal (PState.init cfg) evs) ∧
    (∀ st : PState, st.proxyClient = true ∨ st.finishedQueue = false →
      tryStartAntiAfk cfg st = st) ∧
    (∀ (st : PState) (su lo : Bool), afkSafe st → afkSafe (loginStep cfg st su lo)) := by
  refine ⟨?_, ?_, ?_⟩
  · have key : ∀ (l : List PEvent) (st : PState), afkSafe st →
        (∀ e ∈ l, e ≠ PEvent.toggleAfk) → afkSafe (run cfg cal st l) := by
      intro l
      induction l with
      | nil => intro st h _; exact h
      | cons e rest ih =>
        intro st h hs
        have h1 : afkSafe (step cfg cal st e) :=
          afkSafe_step cfg cal st e h (hs e (List.mem_cons_self _ _))
        exact ih (step cfg cal st e) h1 (fun e' he' => hs e' (List.mem_cons_of_mem _ he'))
    refine key evs (PState.init cfg) ?_ hnt
    intro hc
    simp [PState.init] at hc
  · intro st hst
    unfold tryStartAntiAfk
    rcases hst with hpc | hnf
    · split_ifs with h1 h2 h3 h4 <;> first | rfl | (exact absurd hpc (by simp_all))
    · split_ifs with h1 h2 h3 h4 <;> first | rfl | (exact absurd hnf (by simp_all))
  · intro st su lo h
    exact afkSafe_step cfg cal st (PEvent.login su lo) h (by simp)

/-- C9 (witness): the gating invariant along a concrete toggle-free trace in
which the queue finishes with no client and a player then attaches. -/
theorem antiAfk_gating_witness :
    afkSafe (run defaultCfg cal0 (PState.init defaultCfg)
      [PEvent.start, PEvent.chat "Connected to the server" 5000, PEvent.login true true]) :=
  (antiAfk_gating defaultCfg cal0
    [PEvent.start, PEvent.chat "Connected to the server" 5000, PEvent.login true true]
    (by decide)).1

end TwoB
